import Mathlib

/-!
Verification of the trace-context propagation core of the grpc tracing
contrib package (`contrib/google.golang.org/grpc/grpc.go`).

The Go code is shallowly embedded: the gRPC metadata carrier `metadata.MD`
becomes a function from keys to ordered value lists, the per-call
`context.Context` becomes an explicit record holding the incoming and
outgoing metadata and the ambient span, and machine integers become `Nat`
(uint64) and `Int` (int) with explicit `% 2 ^ 64` where the Go code
converts between them.  Fallible parsing returns `Option`.
-/

set_option autoImplicit false

namespace GrpcTrace

/-- The two propagation header keys from the source:
`traceIDKey = "x-datadog-trace-id"`. -/
def traceIDKey : String := "x-datadog-trace-id"

/-- `parentIDKey = "x-datadog-parent-id"`. -/
def parentIDKey : String := "x-datadog-parent-id"

/-- `metadata.MD`: a mapping from (lower-cased) keys to ordered lists of
string values, mirroring multi-valued header semantics.  Embedded as a
function so that carrier equalities are stated extensionally per key. -/
abbrev MD : Type := String → List String

/-- The carrier with no entries at all. -/
def emptyMD : MD := fun _ => []

/-- ASCII lower-casing of one character, modelling the ASCII case of Go's
`strings.ToLower` (the only case exercised here: all keys are ASCII). -/
def lowerChar (c : Char) : Char :=
  if 65 ≤ c.toNat ∧ c.toNat ≤ 90 then Char.ofNat (c.toNat + 32) else c

/-- ASCII lower-casing of a string. -/
def lowerString (s : String) : String :=
  String.mk (s.toList.map lowerChar)

/-- `metadata.New`: builds an MD from key/value pairs, lower-casing each
key.  Looking up `k` returns the values of the pairs whose lower-cased key
is `k`, in order. -/
def metadataNew (pairs : List (String × String)) : MD :=
  fun k => (pairs.filter (fun p => lowerString p.1 == k)).map (fun p => p.2)

/-- `metadata.Join existing md`: per key, the values of `existing` followed
by the values of `md` (the source joins `existing` first). -/
def mdJoin (a b : MD) : MD := fun k => a k ++ b k

/-- `tracer.Span`: the fields the grpc contrib code touches.  `meta` is the
string-tag map written by `SetMeta`.  The Go field `Type` is `spanType`
here (`Type` is reserved in Lean). -/
structure Span where
  traceID : Nat
  parentID : Nat
  spanType : String
  meta : String → Option String

/-- `span.SetMeta key value`: map assignment on the tag map. -/
def setMeta (s : Span) (k v : String) : Span :=
  { s with meta := fun k2 => if k2 = k then some v else s.meta k2 }

/-- The per-call `context.Context`, restricted to what the code reads and
writes: the incoming metadata (`metadata.FromIncomingContext`), the
outgoing metadata (`metadata.NewOutgoingContext`), and the span bound by
`tracer.ContextWithSpan`. -/
structure Context where
  incoming : Option MD
  outgoing : Option MD
  activeSpan : Option Span

/-- A context carrying nothing. -/
def emptyContext : Context := ⟨none, none, none⟩

/-- `tracer.ContextWithSpan ctx span`. -/
def contextWithSpan (ctx : Context) (s : Span) : Context :=
  { ctx with activeSpan := some s }

/-- The transport boundary: the metadata the client attached to its
outgoing context is what the server observes as its incoming metadata;
nothing else crosses the process boundary. -/
def transport (ctx : Context) : Context :=
  ⟨ctx.outgoing, none, none⟩

/-- Is `c` an ASCII decimal digit (`'0' ≤ c ≤ '9'`), as checked by
`strconv.ParseUint` in base 10. -/
def isDigitChar (c : Char) : Bool :=
  48 ≤ c.toNat && c.toNat ≤ 57

/-- Digit accumulation loop of `strconv.ParseUint` (base 10): consume
decimal digits most-significant first, failing on any non-digit. -/
def parseDigitsCore : List Char → Nat → Option Nat
  | [], acc => some acc
  | c :: rest, acc =>
    if isDigitChar c then parseDigitsCore rest (acc * 10 + (c.toNat - 48))
    else none

/-- Parse a non-empty all-digit string to a `Nat` (`strconv.ParseUint`
without the bit-size check); the empty string is a syntax error. -/
def parseDigits : List Char → Option Nat
  | [] => none
  | c :: rest => parseDigitsCore (c :: rest) 0

/-- `strconv.Atoi`: parse a decimal string (optional sign) into a signed
64-bit integer; syntax errors and values outside `[-2^63, 2^63 - 1]`
produce `none` (Go returns a non-nil error in those cases). -/
def atoi (s : String) : Option Int :=
  match s.toList with
  | [] => none
  | c :: rest =>
    if c = '-' then
      match parseDigits rest with
      | some n => if n ≤ 2 ^ 63 then some (-(n : Int)) else none
      | none => none
    else if c = '+' then
      match parseDigits rest with
      | some n => if n ≤ 2 ^ 63 - 1 then some (n : Int) else none
      | none => none
    else
      match parseDigits (c :: rest) with
      | some n => if n ≤ 2 ^ 63 - 1 then some (n : Int) else none
      | none => none

/-- The digit character for `d < 10`, as produced when formatting a
decimal number. -/
def digitChar (d : Nat) : Char := Char.ofNat (48 + d)

/-- Fuel-driven decimal rendering, most-significant digit first; `fuel`
bounds the digit count (64 is ample for any uint64). -/
def natToDecCore : Nat → Nat → List Char
  | 0, _ => []
  | fuel + 1, n =>
    if n < 10 then [digitChar n]
    else natToDecCore fuel (n / 10) ++ [digitChar (n % 10)]

/-- `fmt.Sprint` of a uint64: its decimal representation (faithful for
every `n < 10 ^ 64`, which covers all uint64 values). -/
def natToDec (n : Nat) : String := String.mk (natToDecCore 64 n)

/-- The loop body of `getID`: scan the values under one key and return the
uint64 conversion `uint64(id)` of the first one `strconv.Atoi` accepts,
or 0 if none is accepted. -/
def getIDLoop : List String → Nat
  | [] => 0
  | s :: rest =>
    match atoi s with
    | some id => (id % (2 ^ 64 : Int)).toNat
    | none => getIDLoop rest

/-- `getID md name`: parse an id from the metadata values under `name`. -/
def getID (md : MD) (name : String) : Nat :=
  getIDLoop (md name)

/-- `getIDs ctx`: read both propagation ids from the incoming metadata;
each id is assigned only when its parsed value is positive, and an absent
carrier yields `(0, 0)`. -/
def getIDs (ctx : Context) : Nat × Nat :=
  match ctx.incoming with
  | some md =>
    let traceID := if getID md traceIDKey > 0 then getID md traceIDKey else 0
    let parentID := if getID md parentIDKey > 0 then getID md parentIDKey else 0
    (traceID, parentID)
  | none => (0, 0)

/-- `setIDs span ctx`: when the span exists and has a non-zero TraceID,
build a fresh carrier holding the two decimal-encoded ids, join it after
any metadata found on the *incoming* context, and install the result as
the outgoing metadata of the context (replacing any previous outgoing
metadata wholesale); otherwise return the context unchanged. -/
def setIDs (span : Option Span) (ctx : Context) : Context :=
  match span with
  | none => ctx
  | some sp =>
    if sp.traceID = 0 then ctx
    else
      let md0 := metadataNew
        [(traceIDKey, natToDec sp.traceID), (parentIDKey, natToDec sp.parentID)]
      let md :=
        match ctx.incoming with
        | some existing => mdJoin existing md0
        | none => md0
      { ctx with outgoing := some md }

/-- `serverSpan t ctx method service` from the source, with the result of
`t.NewRootSpan "grpc.server" service method` passed in as `fresh` (the
tracer self-assigns that span's identifiers; the tracer package is an
external collaborator).  Tags the method under the transposed key
`"gprc.method"` exactly as the source does, sets the type to `"go"`, and
adopts the decoded ids only when both are non-zero. -/
def serverSpan (fresh : Span) (ctx : Context) (method service : String) : Span :=
  let span0 := setMeta fresh "gprc.method" method
  let span1 := { span0 with spanType := "go" }
  let ids := getIDs ctx
  if ids.1 ≠ 0 ∧ ids.2 ≠ 0 then
    { span1 with traceID := ids.1, parentID := ids.2 }
  else span1

/-- Observable tracer-side effects of one intercepted call, used to state
what the interceptors do besides computing a return value.  `E` is the
opaque error type of the wrapped call. -/
inductive Event (E : Type) where
  | newRootSpan (spanName service resource : String)
  | readIncomingMetadata
  | finishWithErr (s : Span) (err : Option E)

/-- The per-call closure returned by `UnaryServerInterceptor`, after the
one-time configuration has been resolved.  `enabled` is `t.Enabled()`,
`fresh` the span `t.NewRootSpan` would produce, `handler` the wrapped
unary handler, `method` is `info.FullMethod`.  Returns the handler's
response and error together with the tracer effects performed.  When
tracing is disabled the handler runs on the unmodified context and no
tracer effect happens at all. -/
def unaryServerCall {Q R E : Type} (enabled : Bool) (fresh : Span)
    (serviceName : String) (handler : Context → Q → R × Option E)
    (ctx : Context) (req : Q) (method : String) :
    R × Option E × List (Event E) :=
  if enabled then
    let span := serverSpan fresh ctx method serviceName
    let hres := handler (contextWithSpan ctx span) req
    (hres.1, hres.2,
      [Event.newRootSpan "grpc.server" serviceName method,
       Event.readIncomingMetadata,
       Event.finishWithErr span hres.2])
  else
    let hres := handler ctx req
    (hres.1, hres.2, [])

/-- The per-call closure returned by `UnaryClientInterceptor`.  `started`
is the span produced by `tracer.StartSpanWithContext ctx "grpc.client"`
(the tracer derives its identity from any ambient span); `codeString`
models `grpc.Code(err).String()`.  The source tags the method, injects the
ids via `setIDs`, invokes, tags the status code, and finishes the span
with the invoker's error, returning that error unchanged. -/
def unaryClientCall {E : Type} (started : Span) (codeString : Option E → String)
    (invoker : Context → String → Option E) (ctx : Context) (method : String) :
    Option E × List (Event E) :=
  let span := setMeta started "grpc.method" method
  let ctx1 := contextWithSpan ctx span
  let ctx2 := setIDs (some span) ctx1
  let err := invoker ctx2 method
  let finalSpan := setMeta span "grpc.code" (codeString err)
  (err, [Event.finishWithErr finalSpan err])

/-! ### Decimal print/parse round-trip facts -/

lemma toNat_digitChar {d : Nat} (h : d < 10) : (digitChar d).toNat = 48 + d := by
  interval_cases d <;> rfl

lemma isDigitChar_digitChar {d : Nat} (h : d < 10) :
    isDigitChar (digitChar d) = true := by
  interval_cases d <;> rfl

lemma parseDigitsCore_append (l1 l2 : List Char) (acc : Nat) :
    parseDigitsCore (l1 ++ l2) acc =
      (parseDigitsCore l1 acc).bind fun m => parseDigitsCore l2 m := by
  induction l1 generalizing acc with
  | nil => simp [parseDigitsCore]
  | cons c rest ih =>
    by_cases h : isDigitChar c
    · simp [parseDigitsCore, h, ih]
    · simp [parseDigitsCore, h]

/-- Helper for the round-trip proof: the power of ten contributed by the
rendered digits of `n` under the given fuel. -/
def padFactor : Nat → Nat → Nat
  | 0, _ => 1
  | fuel + 1, n => if n < 10 then 10 else 10 * padFactor fuel (n / 10)

lemma parseDigitsCore_natToDecCore (fuel : Nat) :
    ∀ n acc, n < 10 ^ fuel →
      parseDigitsCore (natToDecCore fuel n) acc =
        some (acc * padFactor fuel n + n) := by
  induction fuel with
  | zero =>
    intro n acc h
    norm_num at h
    subst h
    simp [natToDecCore, parseDigitsCore, padFactor]
  | succ f ih =>
    intro n acc h
    by_cases h10 : n < 10
    · simp [natToDecCore, h10, padFactor, parseDigitsCore,
        isDigitChar_digitChar h10, toNat_digitChar h10]
    · have hdiv : n / 10 < 10 ^ f := by
        rw [pow_succ] at h
        omega
      have hm : n % 10 < 10 := Nat.mod_lt _ (by omega)
      simp only [natToDecCore, if_neg h10, parseDigitsCore_append,
        ih _ acc hdiv, Option.bind_eq_bind, Option.some_bind,
        parseDigitsCore, isDigitChar_digitChar hm, toNat_digitChar hm,
        if_true, padFactor, Option.some.injEq]
      rw [show acc * (10 * padFactor f (n / 10)) =
            10 * (acc * padFactor f (n / 10)) by ring]
      generalize acc * padFactor f (n / 10) = Q
      omega

lemma natToDecCore_ne_nil (fuel n : Nat) : natToDecCore (fuel + 1) n ≠ [] := by
  by_cases h10 : n < 10 <;> simp [natToDecCore, h10]

lemma mem_natToDecCore_isDigit (fuel : Nat) :
    ∀ n c, c ∈ natToDecCore fuel n → isDigitChar c = true := by
  induction fuel with
  | zero => intro n c hc; simp [natToDecCore] at hc
  | succ f ih =>
    intro n c hc
    by_cases h10 : n < 10
    · simp [natToDecCore, h10] at hc
      subst hc
      exact isDigitChar_digitChar h10
    · simp [natToDecCore, h10] at hc
      rcases hc with hc | hc
      · exact ih _ _ hc
      · subst hc
        exact isDigitChar_digitChar (Nat.mod_lt _ (by omega))

lemma toList_mk (l : List Char) : (String.mk l).toList = l := rfl

lemma parseDigits_cons (c : Char) (rest : List Char) :
    parseDigits (c :: rest) = parseDigitsCore (c :: rest) 0 := rfl

/-- Parsing back the decimal rendering of any `n < 2 ^ 63` recovers `n`:
`strconv.Atoi` accepts exactly the identifiers below `2 ^ 63`. -/
lemma atoi_natToDec {n : Nat} (h : n < 2 ^ 63) :
    atoi (natToDec n) = some (n : Int) := by
  have hlt : n < 10 ^ 64 := lt_of_lt_of_le h (by norm_num)
  rcases hl : natToDecCore 64 n with _ | ⟨c, rest⟩
  · exact absurd hl (natToDecCore_ne_nil 63 n)
  · have hdig : isDigitChar c = true :=
      mem_natToDecCore_isDigit 64 n c (by rw [hl]; exact List.mem_cons_self _ _)
    have hcm : c ≠ '-' := by
      intro e; subst e; simp [isDigitChar] at hdig
    have hcp : c ≠ '+' := by
      intro e; subst e; simp [isDigitChar] at hdig
    have h2 : natToDec n = String.mk (c :: rest) := by rw [natToDec, hl]
    rw [h2]
    simp only [atoi, toList_mk, if_neg hcm, if_neg hcp, parseDigits_cons]
    rw [show (c :: rest) = natToDecCore 64 n from hl.symm,
      parseDigitsCore_natToDecCore 64 n 0 hlt]
    simp only [Nat.zero_mul, Nat.zero_add]
    rw [if_pos (by omega : n ≤ 2 ^ 63 - 1)]

/-! ### Carrier lookup facts -/

lemma metadataNew_pair_tk (a b : String) :
    metadataNew [(traceIDKey, a), (parentIDKey, b)] traceIDKey = [a] := rfl

lemma metadataNew_pair_pk (a b : String) :
    metadataNew [(traceIDKey, a), (parentIDKey, b)] parentIDKey = [b] := rfl

lemma metadataNew_pair_other (a b k : String) (h1 : k ≠ traceIDKey)
    (h2 : k ≠ parentIDKey) :
    metadataNew [(traceIDKey, a), (parentIDKey, b)] k = [] := by
  have e1 : lowerString traceIDKey = traceIDKey := rfl
  have e2 : lowerString parentIDKey = parentIDKey := rfl
  have f1 : (traceIDKey == k) = false := beq_eq_false_iff_ne.mpr (Ne.symm h1)
  have f2 : (parentIDKey == k) = false := beq_eq_false_iff_ne.mpr (Ne.symm h2)
  simp [metadataNew, e1, e2, List.filter, f1, f2]

lemma getIDs_some (md : MD) (o : Option MD) (sp : Option Span) :
    getIDs ⟨some md, o, sp⟩ = (getID md traceIDKey, getID md parentIDKey) := by
  have h1 : ∀ v : Nat, (if v > 0 then v else 0) = v := by
    intro v; split <;> omega
  simp only [getIDs, h1]

lemma toNat_emod_two_pow_64 {v : Nat} (hv : v < 2 ^ 64) :
    (((v : Int)) % (2 ^ 64 : Int)).toNat = v := by
  rw [Int.emod_eq_of_lt (by positivity)
    (by exact_mod_cast hv : (v : Int) < (2 ^ 64 : Int))]
  simp

/-! ### C1: encode-then-decode round trip -/

/-- Claim C1 (amended): for every span whose traceID and parentID are both
non-zero and both below `2 ^ 63`, encoding through `setIDs` into a fresh
carrier and decoding that carrier through `getIDs`/`getID` yields exactly
the same pair.  (The bound `2 ^ 63` is forced: decode parses with
`strconv.Atoi` into a signed 64-bit int, so identifiers of `2 ^ 63` and
above fail to parse and decode to 0 — see the counterexample.) -/
theorem encode_decode_roundtrip (sp : Span) (ht0 : sp.traceID ≠ 0)
    (hp0 : sp.parentID ≠ 0) (ht : sp.traceID < 2 ^ 63)
    (hp : sp.parentID < 2 ^ 63) :
    getIDs (transport (setIDs (some sp) emptyContext)) =
      (sp.traceID, sp.parentID) := by
  have hset : setIDs (some sp) emptyContext =
      ⟨none, some (metadataNew [(traceIDKey, natToDec sp.traceID),
        (parentIDKey, natToDec sp.parentID)]), none⟩ := by
    simp [setIDs, ht0, emptyContext]
  rw [hset]
  show getIDs ⟨some _, none, none⟩ = _
  rw [getIDs_some, getID, getID, metadataNew_pair_tk, metadataNew_pair_pk]
  simp only [getIDLoop, atoi_natToDec ht, atoi_natToDec hp]
  rw [toNat_emod_two_pow_64 (lt_trans ht (by norm_num)),
    toNat_emod_two_pow_64 (lt_trans hp (by norm_num))]

/-- Concrete span for the C1 witness. -/
def spSmall : Span := ⟨123, 456, "", fun _ => none⟩

/-- Claim C1 witness: the amended round trip at traceID 123, parentID 456. -/
theorem encode_decode_roundtrip_witness :
    getIDs (transport (setIDs (some spSmall) emptyContext)) =
      (spSmall.traceID, spSmall.parentID) :=
  encode_decode_roundtrip spSmall (by decide) (by decide) (by decide) (by decide)

/-- Concrete span for the C1 counterexample: traceID `2 ^ 63`. -/
def spBig : Span := ⟨2 ^ 63, 1, "", fun _ => none⟩

/-- Claim C1 counterexample: for the pair `(2 ^ 63, 1)` — both components
non-zero 64-bit values — encode-then-decode yields `(0, 1)`, not the
original pair: `fmt.Sprint` renders `2 ^ 63` but `strconv.Atoi` rejects it
as out of signed-64-bit range, so the traceID decodes to 0. -/
theorem encode_decode_overflow :
    spBig.traceID = 2 ^ 63 ∧ spBig.parentID = 1 ∧
    getIDs (transport (setIDs (some spBig) emptyContext)) = (0, 1) ∧
    ((0 : Nat), (1 : Nat)) ≠ (spBig.traceID, spBig.parentID) := by
  decide

/-! ### C2/C3: partial pairs on the decode path -/

/-- A carrier holding only the trace-id key, with value `"5"`. -/
def partialMD : MD := metadataNew [(traceIDKey, "5")]

/-- An inbound context carrying only `partialMD`. -/
def partialCtx : Context := ⟨some partialMD, none, none⟩

/-- Claim C2 counterexample: a carrier holding only `x-datadog-trace-id: "5"`
decodes to `(5, 0)` — a result with exactly one identifier non-zero — and
not to `(0, 0)`: `getIDs` does not blank partial pairs. -/
theorem getIDs_partial_not_blanked :
    getIDs partialCtx = (5, 0) ∧ getIDs partialCtx ≠ (0, 0) := by decide

/-- Claim C2 (amended): the decode path honors partial pairs (see C3); the
both-or-neither invariant is enforced one step later, where a trace would
be continued: whenever either decoded identifier is 0, `serverSpan` keeps
the fresh root span's self-assigned identifiers and ignores the decoded
pair entirely. -/
theorem partial_pair_ignored_by_server (fresh : Span) (ctx : Context)
    (m s : String) (h : (getIDs ctx).1 = 0 ∨ (getIDs ctx).2 = 0) :
    (serverSpan fresh ctx m s).traceID = fresh.traceID ∧
    (serverSpan fresh ctx m s).parentID = fresh.parentID := by
  have hneg : ¬((getIDs ctx).1 ≠ 0 ∧ (getIDs ctx).2 ≠ 0) := by
    rcases h with h | h <;> simp [h]
  simp only [serverSpan, if_neg hneg]
  exact ⟨rfl, rfl⟩

/-- A fresh root span with self-assigned identifiers, as the tracer would
create for an inbound call. -/
def spFresh : Span := ⟨99, 77, "", fun _ => none⟩

/-- Claim C2 witness: with only the trace-id key inbound, the server span keeps
the fresh span's identifiers. -/
theorem partial_pair_ignored_by_server_witness :
    (serverSpan spFresh partialCtx "/pkg.Svc/M" "svc").traceID =
      spFresh.traceID ∧
    (serverSpan spFresh partialCtx "/pkg.Svc/M" "svc").parentID =
      spFresh.parentID :=
  partial_pair_ignored_by_server spFresh partialCtx "/pkg.Svc/M" "svc"
    (Or.inr (by decide))

/-- Claim C3 (confirmed): for a carrier in which only one of the two trace keys
is set (decoding to some non-zero `v`) while the other key is absent,
`getIDs` honors the set key and yields 0 for the missing identifier — no
partial-pair validation happens at decode time. -/
theorem getIDs_partial_pair (md : MD) (v : Nat) (hv : v ≠ 0) :
    (getID md traceIDKey = v → md parentIDKey = [] →
      getIDs ⟨some md, none, none⟩ = (v, 0)) ∧
    (getID md parentIDKey = v → md traceIDKey = [] →
      getIDs ⟨some md, none, none⟩ = (0, v)) := by
  constructor
  · intro ht hp
    rw [getIDs_some, ht]
    simp [getID, hp, getIDLoop]
  · intro hp ht
    rw [getIDs_some, hp]
    simp [getID, ht, getIDLoop]

/-- A carrier holding only the trace-id key, with value `"7"`. -/
def mdOnlyTrace : MD := metadataNew [(traceIDKey, "7")]

/-- Claim C3 witness: only `x-datadog-trace-id: "7"` set decodes to `(7, 0)`. -/
theorem getIDs_partial_pair_witness :
    getIDs ⟨some mdOnlyTrace, none, none⟩ = (7, 0) :=
  (getIDs_partial_pair mdOnlyTrace 7 (by decide)).1 (by decide) (by decide)

/-! ### C5: per-key first-parse decode -/

/-- A carrier whose trace-id key holds the value list `["-3", "7"]`. -/
def negMD : MD := fun k => if k = traceIDKey then ["-3", "7"] else []

/-- Claim C5 counterexample: with the values `["-3", "7"]` under the trace-id
key, decode does not skip the negative value and return 7; `strconv.Atoi`
accepts `"-3"` and the `uint64` conversion wraps it to `2 ^ 64 - 3`. -/
theorem getID_negative_not_skipped :
    getID negMD traceIDKey = 2 ^ 64 - 3 ∧ getID negMD traceIDKey ≠ 7 := by
  decide

lemma getIDLoop_all_none (l : List String) (h : ∀ s ∈ l, atoi s = none) :
    getIDLoop l = 0 := by
  induction l with
  | nil => rfl
  | cons s rest ih =>
    simp only [getIDLoop, h s (List.mem_cons_self _ _)]
    exact ih fun v hv => h v (List.mem_cons_of_mem _ hv)

lemma getIDLoop_first_some (pre : List String) (s : String)
    (rest : List String) (hpre : ∀ v ∈ pre, atoi v = none) (i : Int)
    (hs : atoi s = some i) :
    getIDLoop (pre ++ s :: rest) = ((i % (2 ^ 64 : Int))).toNat := by
  induction pre with
  | nil => simp [getIDLoop, hs]
  | cons p ps ih =>
    simp only [List.cons_append, getIDLoop, hpre p (List.mem_cons_self _ _)]
    exact ih fun v hv => hpre v (List.mem_cons_of_mem _ hv)

/-- Claim C5 (amended): looking up a key independently, decode returns the
two's-complement `uint64` conversion of the first value `strconv.Atoi`
accepts as a *signed* 64-bit integer — negative decimal strings are
accepted, not skipped, while malformed or out-of-int64-range values are
skipped; a key that is absent, or none of whose values parse, yields 0
for that identifier. -/
theorem getID_first_signed_parse (md : MD) (name : String) :
    ((∀ v ∈ md name, atoi v = none) → getID md name = 0) ∧
    (∀ pre s rest, md name = pre ++ s :: rest →
      (∀ v ∈ pre, atoi v = none) → ∀ i, atoi s = some i →
      getID md name = ((i % (2 ^ 64 : Int))).toNat) := by
  constructor
  · intro h
    exact getIDLoop_all_none _ h
  · intro pre s rest hmd hpre i hs
    unfold getID
    rw [hmd]
    exact getIDLoop_first_some pre s rest hpre i hs

/-- Claim C5 witness: the first-accepted-value rule applied to `["-3", "7"]`. -/
theorem getID_first_signed_parse_witness :
    getID negMD traceIDKey = (((-3 : Int) % (2 ^ 64 : Int))).toNat :=
  (getID_first_signed_parse negMD traceIDKey).2 [] "-3" ["7"] rfl
    (by intro v hv; simp at hv) (-3) (by decide)

/-! ### C4/C9: what setIDs merges with -/

/-- A context with no incoming metadata whose *outgoing* carrier already
holds an unrelated entry `x-request-id: "abc"`. -/
def outgoingOnlyCtx : Context :=
  ⟨none, some (metadataNew [("x-request-id", "abc")]), none⟩

/-- The client span being encoded in the C4/C9 examples. -/
def spClient : Span := ⟨1, 2, "", fun _ => none⟩

/-- Claim C4 counterexample: with `x-request-id: "abc"` already present in the
*outgoing* carrier, `setIDs` does not preserve it: the freshly built
carrier is installed wholesale as the outgoing metadata and the unrelated
key is gone. -/
theorem setIDs_drops_outgoing :
    (outgoingOnlyCtx.outgoing.getD emptyMD) "x-request-id" = ["abc"] ∧
    ((setIDs (some spClient) outgoingOnlyCtx).outgoing.getD emptyMD)
        "x-request-id" = [] := by
  decide

/-- Claim C4 (amended): for a span with non-zero traceID, `setIDs` merges the
two trace entries with the metadata of the *incoming* context (the
previous outgoing carrier is replaced wholesale): every unrelated key of
the incoming metadata survives unchanged alongside the two injected trace
keys, and values already present under the trace keys in the incoming
metadata are kept as a multi-valued union, incoming values first. -/
theorem setIDs_merges_incoming (sp : Span) (ctx : Context) (inc : MD)
    (h : sp.traceID ≠ 0) (hinc : ctx.incoming = some inc) :
    ∃ md, (setIDs (some sp) ctx).outgoing = some md ∧
      (∀ k, k ≠ traceIDKey → k ≠ parentIDKey → md k = inc k) ∧
      md traceIDKey = inc traceIDKey ++ [natToDec sp.traceID] ∧
      md parentIDKey = inc parentIDKey ++ [natToDec sp.parentID] := by
  refine ⟨mdJoin inc (metadataNew [(traceIDKey, natToDec sp.traceID),
    (parentIDKey, natToDec sp.parentID)]), ?_, ?_, ?_, ?_⟩
  · simp [setIDs, h, hinc]
  · intro k h1 h2
    simp [mdJoin, metadataNew_pair_other _ _ _ h1 h2]
  · simp [mdJoin, metadataNew_pair_tk]
  · simp [mdJoin, metadataNew_pair_pk]

/-- The incoming carrier used by the C4/C9 witnesses. -/
def incMD : MD := metadataNew [("x-request-id", "abc")]

/-- A context whose incoming metadata is `incMD`. -/
def incomingCtx : Context := ⟨some incMD, none, none⟩

/-- Claim C4 witness: the merge rule applied to an incoming carrier holding
`x-request-id: "abc"`. -/
theorem setIDs_merges_incoming_witness :
    ∃ md, (setIDs (some spClient) incomingCtx).outgoing = some md ∧
      (∀ k, k ≠ traceIDKey → k ≠ parentIDKey → md k = incMD k) ∧
      md traceIDKey = incMD traceIDKey ++ [natToDec spClient.traceID] ∧
      md parentIDKey = incMD parentIDKey ++ [natToDec spClient.parentID] :=
  setIDs_merges_incoming spClient incomingCtx incMD (by decide) rfl

/-- Claim C9 (confirmed): `setIDs` builds the outbound carrier by joining the
incoming-context metadata with the two trace entries: every inbound
metadata entry is forwarded verbatim into the downstream carrier (as the
prefix of its key's value list), and the joined carrier is installed
through `NewOutgoingContext` wholesale — two contexts with the same
incoming metadata but different previously attached outgoing metadata
yield the very same outbound carrier, so the old outgoing metadata is
discarded. -/
theorem setIDs_forwards_incoming (sp : Span) (ctx1 ctx2 : Context) (inc : MD)
    (h : sp.traceID ≠ 0) (h1 : ctx1.incoming = some inc)
    (h2 : ctx2.incoming = some inc) :
    ∃ md, (setIDs (some sp) ctx1).outgoing = some md ∧
      (setIDs (some sp) ctx2).outgoing = some md ∧
      ∀ k, md k = inc k ++
        metadataNew [(traceIDKey, natToDec sp.traceID),
          (parentIDKey, natToDec sp.parentID)] k := by
  refine ⟨mdJoin inc (metadataNew [(traceIDKey, natToDec sp.traceID),
    (parentIDKey, natToDec sp.parentID)]), ?_, ?_, fun k => rfl⟩
  · simp [setIDs, h, h1]
  · simp [setIDs, h, h2]

/-- A context with the same incoming metadata as `incomingCtx` but with
stale outgoing metadata already attached. -/
def incomingCtxB : Context :=
  ⟨some incMD, some (metadataNew [("stale", "1")]), none⟩

/-- Claim C9 witness: same incoming metadata, different prior outgoing metadata,
identical outbound carrier. -/
theorem setIDs_forwards_incoming_witness :
    ∃ md, (setIDs (some spClient) incomingCtx).outgoing = some md ∧
      (setIDs (some spClient) incomingCtxB).outgoing = some md ∧
      ∀ k, md k = incMD k ++
        metadataNew [(traceIDKey, natToDec spClient.traceID),
          (parentIDKey, natToDec spClient.parentID)] k :=
  setIDs_forwards_incoming spClient incomingCtx incomingCtxB incMD
    (by decide) rfl rfl

/-! ### C6: continuation rule of the server span -/

/-- Claim C6 (confirmed): the server interceptor's span carries the decoded
(traceID, parentID) exactly when both decoded identifiers are non-zero
(continuation), and otherwise keeps the fresh root span's self-assigned
identifiers untouched (new root). -/
theorem serverSpan_continuation (fresh : Span) (ctx : Context)
    (m s : String) :
    (serverSpan fresh ctx m s).traceID =
      (if (getIDs ctx).1 ≠ 0 ∧ (getIDs ctx).2 ≠ 0 then (getIDs ctx).1
       else fresh.traceID) ∧
    (serverSpan fresh ctx m s).parentID =
      (if (getIDs ctx).1 ≠ 0 ∧ (getIDs ctx).2 ≠ 0 then (getIDs ctx).2
       else fresh.parentID) := by
  by_cases hc : (getIDs ctx).1 ≠ 0 ∧ (getIDs ctx).2 ≠ 0
  · constructor <;> simp only [serverSpan, if_pos hc]
  · constructor <;> simp only [serverSpan, if_neg hc] <;> rfl

/-! ### C7/C8: interceptor pass-through behavior -/

/-- The context the server interceptor hands to the wrapped handler when
tracing is enabled: the original context with the server span bound. -/
def serverCallCtx (fresh : Span) (ctx : Context) (m svc : String) : Context :=
  contextWithSpan ctx (serverSpan fresh ctx m svc)

/-- Claim C7 (confirmed): with tracing disabled, the server interceptor invokes
the handler on the unmodified context and request and returns its response
and error verbatim, performing no tracer effect at all — no span creation,
no metadata read, no finish. -/
theorem server_disabled_passthrough {Q R E : Type} (fresh : Span)
    (svc : String) (handler : Context → Q → R × Option E) (ctx : Context)
    (req : Q) (m : String) :
    unaryServerCall false fresh svc handler ctx req m =
      ((handler ctx req).1, (handler ctx req).2, []) := by
  simp [unaryServerCall]

/-- The client span after the method tag is set. -/
def clientSpan (started : Span) (m : String) : Span :=
  setMeta started "grpc.method" m

/-- The context the client interceptor hands to the wrapped invoker: the
original context with the client span bound and the ids injected. -/
def clientCtx (started : Span) (ctx : Context) (m : String) : Context :=
  setIDs (some (clientSpan started m)) (contextWithSpan ctx (clientSpan started m))

/-- The error the wrapped invoker produces on that context. -/
def clientErr {E : Type} (started : Span)
    (invoker : Context → String → Option E) (ctx : Context) (m : String) :
    Option E :=
  invoker (clientCtx started ctx m) m

/-- The client span as finished: method tag plus the `grpc.code` tag
computed from the invoker's error. -/
def clientFinalSpan {E : Type} (started : Span)
    (codeString : Option E → String) (invoker : Context → String → Option E)
    (ctx : Context) (m : String) : Span :=
  setMeta (clientSpan started m) "grpc.code"
    (codeString (clientErr started invoker ctx m))

/-- Claim C8 (confirmed): for every outcome of the wrapped call, both
interceptors return the wrapped call's error — and the server also its
response value — unchanged, never wrapped, replaced or swallowed, while
recording it into the span via `FinishWithErr`; the client additionally
tags `grpc.code` with the status-code string of that error. -/
theorem error_passthrough_and_recorded {Q R E : Type}
    (fresh started : Span) (svc m : String)
    (handler : Context → Q → R × Option E) (ctx : Context) (req : Q)
    (codeString : Option E → String) (invoker : Context → String → Option E)
    (cctx : Context) :
    (unaryServerCall true fresh svc handler ctx req m).1 =
      (handler (serverCallCtx fresh ctx m svc) req).1 ∧
    (unaryServerCall true fresh svc handler ctx req m).2.1 =
      (handler (serverCallCtx fresh ctx m svc) req).2 ∧
    (unaryServerCall true fresh svc handler ctx req m).2.2 =
      [Event.newRootSpan "grpc.server" svc m, Event.readIncomingMetadata,
       Event.finishWithErr (serverSpan fresh ctx m svc)
         (handler (serverCallCtx fresh ctx m svc) req).2] ∧
    (unaryClientCall started codeString invoker cctx m).1 =
      clientErr started invoker cctx m ∧
    (unaryClientCall started codeString invoker cctx m).2 =
      [Event.finishWithErr (clientFinalSpan started codeString invoker cctx m)
        (clientErr started invoker cctx m)] ∧
    (clientFinalSpan started codeString invoker cctx m).meta "grpc.code" =
      some (codeString (clientErr started invoker cctx m)) := by
  exact ⟨rfl, rfl, rfl, rfl, rfl, by simp [clientFinalSpan, setMeta]⟩

/-! ### C10: transposed method tag key on the server span -/

/-- Claim C10 (confirmed): the server span records the full method name under
the transposed key `"gprc.method"`, and — as long as the tracer-created
fresh span does not itself carry a `"grpc.method"` tag — carries nothing
under `"grpc.method"`; the client span records the method under
`"grpc.method"`. -/
theorem method_tag_spelling {E : Type} (fresh started : Span)
    (ctx cctx : Context) (m s : String) (codeString : Option E → String)
    (invoker : Context → String → Option E)
    (h : fresh.meta "grpc.method" = none) :
    (serverSpan fresh ctx m s).meta "gprc.method" = some m ∧
    (serverSpan fresh ctx m s).meta "grpc.method" = none ∧
    (clientFinalSpan started codeString invoker cctx m).meta "grpc.method" =
      some m := by
  have hmeta : (serverSpan fresh ctx m s).meta =
      fun k2 => if k2 = "gprc.method" then some m else fresh.meta k2 := by
    by_cases hc : (getIDs ctx).1 ≠ 0 ∧ (getIDs ctx).2 ≠ 0 <;>
      simp [serverSpan, hc, setMeta]
  refine ⟨?_, ?_, ?_⟩
  · rw [hmeta]
    simp
  · rw [hmeta]
    simp only [h]
    rw [if_neg (by decide : ("grpc.method" : String) ≠ "gprc.method")]
  · simp [clientFinalSpan, clientSpan, setMeta]

/-- A fresh root span with no tags, for the C10 witness. -/
def spRoot : Span := ⟨11, 0, "", fun _ => none⟩

/-- Claim C10 witness: the tag keys at concrete arguments. -/
theorem method_tag_spelling_witness :
    (serverSpan spRoot emptyContext "/pkg.Svc/M" "svc").meta "gprc.method" =
      some "/pkg.Svc/M" ∧
    (serverSpan spRoot emptyContext "/pkg.Svc/M" "svc").meta "grpc.method" =
      none ∧
    (clientFinalSpan spRoot (fun _ => "OK")
        (fun _ _ => (none : Option Unit)) emptyContext "/pkg.Svc/M").meta
        "grpc.method" = some "/pkg.Svc/M" :=
  method_tag_spelling spRoot spRoot emptyContext emptyContext "/pkg.Svc/M"
    "svc" (fun _ => "OK") (fun _ _ => (none : Option Unit)) rfl

end GrpcTrace
